/-
Verification of the rule-based data-validation pipeline
(rule parsing, field mapping, pre-aggregation, batch validation,
violation reporting) against its design specification.

The pipeline's components are shallowly embedded as executable Lean
functions over a concrete data model: rows are association lists from
column names to scalar values, datasets are ordered lists of rows, and
the remote language-model boundary is an injected response value.
-/
import Mathlib

set_option maxHeartbeats 1000000
set_option maxRecDepth 100000

/-! ## Data model: scalar values, rows, datasets -/

/-- Scalar cell value of a dataset: null/missing, an integer amount or id,
or a string. -/
inductive Value where
  | null : Value
  | int : Int → Value
  | str : String → Value
deriving DecidableEq, Repr

/-- A row (record): a mapping from column name to scalar value, kept as an
association list in column order. -/
abbrev Row := List (String × Value)

/-- Reads column `c` of row `r`; a missing column reads as `Value.null`
(the spec treats missing and null group keys alike). -/
def rowGet : Row → String → Value
  | [], _ => Value.null
  | (c', v) :: r, c => if c' = c then v else rowGet r c

/-- Writes column `c` of row `r` to `v`, overwriting any previous binding
for `c` (derived columns are recomputed and overwritten on every call). -/
def setCol : Row → String → Value → Row
  | [], c, v => [(c, v)]
  | (c', w) :: r, c, v => if c' = c then setCol r c v else (c', w) :: setCol r c v

/-- Total accessor for the `i`-th row of a dataset (empty row when out of
bounds). -/
def rowAt (d : List Row) (i : Nat) : Row := d.getD i []

/-- Numeric view of a scalar used when summing an amount column; a
non-numeric or missing amount contributes 0 to the sum. -/
def valInt : Value → Int
  | Value.int n => n
  | _ => 0

theorem rowGet_setCol_same (r : Row) (c : String) (v : Value) :
    rowGet (setCol r c v) c = v := by
  induction r with
  | nil => simp [setCol, rowGet]
  | cons p r ih =>
    obtain ⟨c', w⟩ := p
    by_cases h : c' = c
    · simp [setCol, h, ih]
    · simp [setCol, rowGet, h, ih]

theorem rowGet_setCol_other (r : Row) (c c' : String) (v : Value) (h : c' ≠ c) :
    rowGet (setCol r c v) c' = rowGet r c' := by
  have h' : ¬ (c = c') := fun he => h he.symm
  induction r with
  | nil => simp [setCol, rowGet, h']
  | cons p r ih =>
    obtain ⟨c₀, w⟩ := p
    by_cases h₀ : c₀ = c
    · subst h₀
      simp [setCol, rowGet, h', ih]
    · simp [setCol, rowGet, h₀, h, ih]

/-! ## Pre-Aggregator

Modelled from the spec: the source function `pre_aggregate_data` is not in
the source tree (only its tests are). Per the design contract, it groups
rows by `group_key` (default `Customer_ID`), computes the sum of
`amount_column` (default `Transaction_Amt`) and the row count per group,
and broadcasts the two scalars back onto every row of the group as the
derived columns `Total_Amount` and `Transaction_Count`; rows with a
missing/null group key are kept as their own singleton groups with null
aggregates. -/

/-- All rows of dataset `d` whose `gk` column reads as the key `k`. -/
def groupRows (d : List Row) (gk : String) (k : Value) : List Row :=
  d.filter (fun r => rowGet r gk = k)

/-- Sum of the amount column `ac` over the rows of `d` whose group key is `k`. -/
def totalFor (d : List Row) (gk ac : String) (k : Value) : Int :=
  ((groupRows d gk k).map (fun r => valInt (rowGet r ac))).sum

/-- Number of rows of `d` whose group key is `k`. -/
def countFor (d : List Row) (gk : String) (k : Value) : Nat :=
  (groupRows d gk k).length

/-- Per-row broadcast step of the Pre-Aggregator: writes the row's group
aggregates (computed over the whole dataset `d`) into the two derived
columns, nulling them when the row's group key is null/missing. -/
def aggRow (d : List Row) (gk ac : String) (r : Row) : Row :=
  match rowGet r gk with
  | Value.null =>
      setCol (setCol r "Total_Amount" Value.null) "Transaction_Count" Value.null
  | k =>
      setCol (setCol r "Total_Amount" (Value.int (totalFor d gk ac k)))
        "Transaction_Count" (Value.int (countFor d gk k))

/-- Modelled from the spec: `pre_aggregate_data` (absent from the source
tree). Broadcasts each group's amount sum and row count onto every row of
the group as `Total_Amount` and `Transaction_Count`; a null/missing group
key yields null aggregates for that row. -/
def pre_aggregate_data (d : List Row) (gk : String := "Customer_ID")
    (ac : String := "Transaction_Amt") : List Row :=
  d.map (aggRow d gk ac)

theorem length_pre_aggregate (d : List Row) (gk ac : String) :
    (pre_aggregate_data d gk ac).length = d.length := by
  simp [pre_aggregate_data]

theorem rowAt_pre_aggregate (d : List Row) (gk ac : String) (i : Nat)
    (hi : i < d.length) :
    rowAt (pre_aggregate_data d gk ac) i = aggRow d gk ac (rowAt d i) := by
  simp [pre_aggregate_data, rowAt, List.getD, List.getElem?_map, List.getElem?_eq_getElem hi]

theorem aggRow_totals (d : List Row) (gk ac : String) (r : Row)
    (hk : rowGet r gk ≠ Value.null) :
    rowGet (aggRow d gk ac r) "Total_Amount" =
      Value.int (totalFor d gk ac (rowGet r gk)) ∧
    rowGet (aggRow d gk ac r) "Transaction_Count" =
      Value.int (countFor d gk (rowGet r gk)) := by
  cases h : rowGet r gk with
  | null => exact absurd h hk
  | int n =>
    simp only [aggRow, h]
    exact ⟨by rw [rowGet_setCol_other _ _ _ _ (by decide), rowGet_setCol_same],
      by rw [rowGet_setCol_same]⟩
  | str s =>
    simp only [aggRow, h]
    exact ⟨by rw [rowGet_setCol_other _ _ _ _ (by decide), rowGet_setCol_same],
      by rw [rowGet_setCol_same]⟩

theorem aggRow_null_key (d : List Row) (gk ac : String) (r : Row)
    (hk : rowGet r gk = Value.null) :
    rowGet (aggRow d gk ac r) "Total_Amount" = Value.null ∧
    rowGet (aggRow d gk ac r) "Transaction_Count" = Value.null := by
  simp only [aggRow, hk]
  exact ⟨by rw [rowGet_setCol_other _ _ _ _ (by decide), rowGet_setCol_same],
    by rw [rowGet_setCol_same]⟩

theorem rowGet_aggRow_other (d : List Row) (gk ac : String) (r : Row) (c : String)
    (h1 : c ≠ "Total_Amount") (h2 : c ≠ "Transaction_Count") :
    rowGet (aggRow d gk ac r) c = rowGet r c := by
  cases h : rowGet r gk <;> simp only [aggRow, h] <;>
    rw [rowGet_setCol_other _ _ _ _ h2, rowGet_setCol_other _ _ _ _ h1]

/-- Claim C1: for every dataset and every row whose group-key value is
non-null, the Pre-Aggregator's output gives that row a `Total_Amount`
equal to the sum of the amount column over all rows sharing its entity
key, and a `Transaction_Count` equal to the number of rows sharing that
key. -/
theorem pre_aggregate_entity_totals (d : List Row) (gk ac : String) (i : Nat)
    (hi : i < d.length) (hk : rowGet (rowAt d i) gk ≠ Value.null) :
    rowGet (rowAt (pre_aggregate_data d gk ac) i) "Total_Amount" =
      Value.int (totalFor d gk ac (rowGet (rowAt d i) gk)) ∧
    rowGet (rowAt (pre_aggregate_data d gk ac) i) "Transaction_Count" =
      Value.int (countFor d gk (rowGet (rowAt d i) gk)) := by
  rw [rowAt_pre_aggregate d gk ac i hi]
  exact aggRow_totals d gk ac (rowAt d i) hk

/-- The concrete scenario dataset
`{Customer_ID:[1,1,2,2,2], Transaction_Amt:[100,200,50,150,300]}`. -/
def scenarioData : List Row :=
  [[("Customer_ID", Value.int 1), ("Transaction_Amt", Value.int 100)],
   [("Customer_ID", Value.int 1), ("Transaction_Amt", Value.int 200)],
   [("Customer_ID", Value.int 2), ("Transaction_Amt", Value.int 50)],
   [("Customer_ID", Value.int 2), ("Transaction_Amt", Value.int 150)],
   [("Customer_ID", Value.int 2), ("Transaction_Amt", Value.int 300)]]

/-- Witness for C1: on the scenario dataset, the first row of customer 1
gets `Total_Amount = 300, Transaction_Count = 2` and the first row of
customer 2 gets `Total_Amount = 500, Transaction_Count = 3`. -/
theorem pre_aggregate_entity_totals_witness :
    (0 < scenarioData.length ∧
      rowGet (rowAt scenarioData 0) "Customer_ID" ≠ Value.null) ∧
    rowGet (rowAt (pre_aggregate_data scenarioData "Customer_ID" "Transaction_Amt") 0)
      "Total_Amount" = Value.int 300 ∧
    rowGet (rowAt (pre_aggregate_data scenarioData "Customer_ID" "Transaction_Amt") 0)
      "Transaction_Count" = Value.int 2 ∧
    rowGet (rowAt (pre_aggregate_data scenarioData "Customer_ID" "Transaction_Amt") 2)
      "Total_Amount" = Value.int 500 ∧
    rowGet (rowAt (pre_aggregate_data scenarioData "Customer_ID" "Transaction_Amt") 2)
      "Transaction_Count" = Value.int 3 := by
  have h0 := pre_aggregate_entity_totals scenarioData "Customer_ID" "Transaction_Amt" 0
    (by decide) (by decide)
  have h2 := pre_aggregate_entity_totals scenarioData "Customer_ID" "Transaction_Amt" 2
    (by decide) (by decide)
  refine ⟨⟨by decide, by decide⟩, ?_, ?_, ?_, ?_⟩
  · rw [h0.1]; decide
  · rw [h0.2]; decide
  · rw [h2.1]; decide
  · rw [h2.2]; decide

/-! ## Null group keys and idempotence of the Pre-Aggregator -/

/-- Dataset whose first row has no `Customer_ID` column at all. -/
def nullKeyData : List Row :=
  [[("Transaction_Amt", Value.int 10)],
   [("Customer_ID", Value.int 1), ("Transaction_Amt", Value.int 20)]]

/-- Claim C7: rows whose group-key value is missing or null are kept in
the output at their position (none dropped), their two aggregate columns
are null, and all their other columns are unchanged. -/
theorem pre_aggregate_keeps_null_key_rows (d : List Row) (gk ac : String) (i : Nat)
    (hi : i < d.length) (hk : rowGet (rowAt d i) gk = Value.null) :
    (pre_aggregate_data d gk ac).length = d.length ∧
    rowGet (rowAt (pre_aggregate_data d gk ac) i) "Total_Amount" = Value.null ∧
    rowGet (rowAt (pre_aggregate_data d gk ac) i) "Transaction_Count" = Value.null ∧
    ∀ c, c ≠ "Total_Amount" → c ≠ "Transaction_Count" →
      rowGet (rowAt (pre_aggregate_data d gk ac) i) c = rowGet (rowAt d i) c := by
  rw [rowAt_pre_aggregate d gk ac i hi]
  refine ⟨length_pre_aggregate d gk ac, (aggRow_null_key d gk ac _ hk).1,
    (aggRow_null_key d gk ac _ hk).2, ?_⟩
  intro c h1 h2
  exact rowGet_aggRow_other d gk ac _ c h1 h2

/-- Witness for C7: the first row of `nullKeyData` (missing `Customer_ID`)
survives aggregation with null aggregates and an untouched amount. -/
theorem pre_aggregate_keeps_null_key_rows_witness :
    (0 < nullKeyData.length ∧
      rowGet (rowAt nullKeyData 0) "Customer_ID" = Value.null) ∧
    (pre_aggregate_data nullKeyData "Customer_ID" "Transaction_Amt").length =
      nullKeyData.length ∧
    rowGet (rowAt (pre_aggregate_data nullKeyData "Customer_ID" "Transaction_Amt") 0)
      "Total_Amount" = Value.null ∧
    rowGet (rowAt (pre_aggregate_data nullKeyData "Customer_ID" "Transaction_Amt") 0)
      "Transaction_Count" = Value.null ∧
    rowGet (rowAt (pre_aggregate_data nullKeyData "Customer_ID" "Transaction_Amt") 0)
      "Transaction_Amt" = Value.int 10 := by
  have h := pre_aggregate_keeps_null_key_rows nullKeyData "Customer_ID" "Transaction_Amt" 0
    (by decide) (by decide)
  refine ⟨⟨by decide, by decide⟩, h.1, h.2.1, h.2.2.1, ?_⟩
  rw [h.2.2.2 "Transaction_Amt" (by decide) (by decide)]
  decide

theorem groupRows_map_of_key_pres (f : Row → Row) (gk : String) (k : Value)
    (hf : ∀ r, rowGet (f r) gk = rowGet r gk) (l : List Row) :
    groupRows (l.map f) gk k = (groupRows l gk k).map f := by
  induction l with
  | nil => simp [groupRows]
  | cons r l ih =>
    simp only [groupRows] at ih ⊢
    by_cases h : rowGet r gk = k
    · simp [List.filter_cons, hf, h, ih]
    · simp [List.filter_cons, hf, h, ih]

theorem totalFor_pre_aggregate (d : List Row) (gk ac : String) (k : Value)
    (h1 : gk ≠ "Total_Amount") (h2 : gk ≠ "Transaction_Count")
    (h3 : ac ≠ "Total_Amount") (h4 : ac ≠ "Transaction_Count") :
    totalFor (pre_aggregate_data d gk ac) gk ac k = totalFor d gk ac k := by
  unfold totalFor pre_aggregate_data
  rw [groupRows_map_of_key_pres (aggRow d gk ac) gk k
      (fun r => rowGet_aggRow_other d gk ac r gk h1 h2) d, List.map_map]
  congr 1
  apply List.map_congr_left
  intro r hr
  simp only [Function.comp_apply, rowGet_aggRow_other d gk ac r ac h3 h4]

theorem countFor_pre_aggregate (d : List Row) (gk ac : String) (k : Value)
    (h1 : gk ≠ "Total_Amount") (h2 : gk ≠ "Transaction_Count") :
    countFor (pre_aggregate_data d gk ac) gk k = countFor d gk k := by
  unfold countFor pre_aggregate_data
  rw [groupRows_map_of_key_pres (aggRow d gk ac) gk k
      (fun r => rowGet_aggRow_other d gk ac r gk h1 h2) d, List.length_map]

/-- Dataset on which re-aggregating with the amount column set to the
derived column `Total_Amount` drifts. -/
def driftData : List Row :=
  [[("Customer_ID", Value.int 1), ("Total_Amount", Value.int 5)],
   [("Customer_ID", Value.int 1), ("Total_Amount", Value.int 7)]]

/-- Counterexample to claim C3 as stated: with grouping key `Customer_ID`
and amount column `Total_Amount` (the same on both calls), re-aggregating
an already-aggregated dataset changes `Total_Amount` (24 versus 12), so
`aggregate ∘ aggregate` differs from `aggregate` on the derived columns. -/
theorem pre_aggregate_not_idempotent_on_derived_amount :
    rowGet (rowAt (pre_aggregate_data
        (pre_aggregate_data driftData "Customer_ID" "Total_Amount")
        "Customer_ID" "Total_Amount") 0) "Total_Amount" ≠
      rowGet (rowAt (pre_aggregate_data driftData "Customer_ID" "Total_Amount") 0)
        "Total_Amount" := by decide

/-- Claim C3 (amended): aggregation is idempotent on the two derived
columns provided the grouping key and the amount column are not themselves
the derived columns `Total_Amount`/`Transaction_Count` (as with the
defaults `Customer_ID` and `Transaction_Amt`). -/
theorem pre_aggregate_idempotent (d : List Row) (gk ac : String)
    (h1 : gk ≠ "Total_Amount") (h2 : gk ≠ "Transaction_Count")
    (h3 : ac ≠ "Total_Amount") (h4 : ac ≠ "Transaction_Count") (i : Nat) :
    rowGet (rowAt (pre_aggregate_data (pre_aggregate_data d gk ac) gk ac) i)
        "Total_Amount" =
      rowGet (rowAt (pre_aggregate_data d gk ac) i) "Total_Amount" ∧
    rowGet (rowAt (pre_aggregate_data (pre_aggregate_data d gk ac) gk ac) i)
        "Transaction_Count" =
      rowGet (rowAt (pre_aggregate_data d gk ac) i) "Transaction_Count" := by
  by_cases hi : i < d.length
  · have hi' : i < (pre_aggregate_data d gk ac).length := by
      rw [length_pre_aggregate]; exact hi
    have hkey : rowGet (rowAt (pre_aggregate_data d gk ac) i) gk =
        rowGet (rowAt d i) gk := by
      rw [rowAt_pre_aggregate d gk ac i hi]
      exact rowGet_aggRow_other d gk ac _ gk h1 h2
    by_cases hk : rowGet (rowAt d i) gk = Value.null
    · have L := aggRow_null_key (pre_aggregate_data d gk ac) gk ac
        (rowAt (pre_aggregate_data d gk ac) i) (by rw [hkey]; exact hk)
      have R1 : rowGet (rowAt (pre_aggregate_data d gk ac) i) "Total_Amount" = Value.null ∧
          rowGet (rowAt (pre_aggregate_data d gk ac) i) "Transaction_Count" = Value.null := by
        rw [rowAt_pre_aggregate d gk ac i hi]
        exact aggRow_null_key d gk ac (rowAt d i) hk
      rw [rowAt_pre_aggregate (pre_aggregate_data d gk ac) gk ac i hi']
      exact ⟨L.1.trans R1.1.symm, L.2.trans R1.2.symm⟩
    · have L := aggRow_totals (pre_aggregate_data d gk ac) gk ac
        (rowAt (pre_aggregate_data d gk ac) i) (by rw [hkey]; exact hk)
      have R := aggRow_totals d gk ac (rowAt d i) hk
      rw [rowAt_pre_aggregate (pre_aggregate_data d gk ac) gk ac i hi']
      constructor
      · rw [L.1, hkey, totalFor_pre_aggregate d gk ac _ h1 h2 h3 h4,
          rowAt_pre_aggregate d gk ac i hi, R.1]
      · rw [L.2, hkey, countFor_pre_aggregate d gk ac _ h1 h2,
          rowAt_pre_aggregate d gk ac i hi, R.2]
  · have hle1 : (pre_aggregate_data d gk ac).length ≤ i := by
      rw [length_pre_aggregate]; omega
    have hle2 : (pre_aggregate_data (pre_aggregate_data d gk ac) gk ac).length ≤ i := by
      rw [length_pre_aggregate, length_pre_aggregate]; omega
    rw [rowAt, rowAt, List.getD_eq_default _ _ hle2, List.getD_eq_default _ _ hle1]
    exact ⟨rfl, rfl⟩

/-- Witness for the amended C3: on the scenario dataset with the default
grouping key and amount column, re-aggregation leaves row 0's derived
columns unchanged. -/
theorem pre_aggregate_idempotent_witness :
    (("Customer_ID" : String) ≠ "Total_Amount" ∧
     ("Customer_ID" : String) ≠ "Transaction_Count" ∧
     ("Transaction_Amt" : String) ≠ "Total_Amount" ∧
     ("Transaction_Amt" : String) ≠ "Transaction_Count") ∧
    (rowGet (rowAt (pre_aggregate_data
          (pre_aggregate_data scenarioData "Customer_ID" "Transaction_Amt")
          "Customer_ID" "Transaction_Amt") 0) "Total_Amount" =
        rowGet (rowAt (pre_aggregate_data scenarioData "Customer_ID" "Transaction_Amt") 0)
          "Total_Amount" ∧
      rowGet (rowAt (pre_aggregate_data
          (pre_aggregate_data scenarioData "Customer_ID" "Transaction_Amt")
          "Customer_ID" "Transaction_Amt") 0) "Transaction_Count" =
        rowGet (rowAt (pre_aggregate_data scenarioData "Customer_ID" "Transaction_Amt") 0)
          "Transaction_Count") :=
  ⟨⟨by decide, by decide, by decide, by decide⟩,
    pre_aggregate_idempotent scenarioData "Customer_ID" "Transaction_Amt"
      (by decide) (by decide) (by decide) (by decide) 0⟩

/-! ## Field Mapper

Modelled from the spec: the source function `map_rules_to_dataset` is not
in the source tree (only its tests are). Per the design contract, each
rule's free-text field name is normalized (case-fold, strip, separators to
underscores) and compared to each dataset column's normalized form by an
edit-distance similarity ratio; the best-scoring column is chosen, with
ties broken by first-seen column order, and a best score below the fixed
acceptance threshold 0.6 marks the rule `unmapped` instead of guessing.
Similarity ratios are carried as exact `Nat × Nat` fractions
(numerator, denominator) and compared by cross-multiplication. -/

/-- A structured validation rule as produced by the Rule Parser. -/
structure Rule where
  type : String
  field : String
  value : Option Int := none
  threshold : Option Int := none
  unmapped : Bool := false
deriving DecidableEq, Repr

/-- One dynamic-programming row update for the edit distance: given the
previous row `prev` (aligned with `b`-positions) and the running value
`dj` of the current row, produce the rest of the current row for source
character `x`. -/
def levRow (x : Char) : List Char → List Nat → Nat → List Nat
  | [], _, _ => []
  | _ :: _, [], _ => []
  | y :: ys, p :: ps, dj =>
      let dj1 := min (dj + 1) (min (ps.headD 0 + 1) (p + (if x = y then 0 else 1)))
      dj1 :: levRow x ys ps dj1

/-- Levenshtein edit distance between two character lists, computed by
row-wise dynamic programming. -/
def editDist (a b : List Char) : Nat :=
  (a.foldl
      (fun prev x => (prev.headD 0 + 1) :: levRow x b prev (prev.headD 0 + 1))
      (List.range (b.length + 1))).getLastD 0

/-- Blank characters stripped from the ends of a field name. -/
def isBlank (c : Char) : Bool := c = ' ' ∨ c = '\t' ∨ c = '\n' ∨ c = '\r'

/-- Character normalization: separators become underscores, letters are
case-folded. -/
def normChar (c : Char) : Char :=
  if c = ' ' ∨ c = '-' then '_' else c.toLower

/-- Normalized form of a field or column name: stripped, case-folded,
separators replaced by underscores. -/
def normalizeName (s : String) : String :=
  ⟨(((s.data.dropWhile isBlank).reverse.dropWhile isBlank).reverse).map normChar⟩

/-- Edit-distance similarity ratio of two strings as an exact fraction
`(numerator, denominator)`: `(maxLen - editDist) / maxLen`, and `1` when
both strings are empty. -/
def simScore (a b : String) : Nat × Nat :=
  let m := max a.data.length b.data.length
  if m = 0 then (1, 1) else (m - editDist a.data b.data, m)

/-- Strict comparison of two similarity fractions by cross-multiplication. -/
def scoreLT (s t : Nat × Nat) : Bool := s.1 * t.2 < t.1 * s.2

/-- Non-strict comparison of two similarity fractions by
cross-multiplication. -/
def scoreLE (s t : Nat × Nat) : Bool := s.1 * t.2 ≤ t.1 * s.2

/-- Acceptance threshold of the Field Mapper: a similarity fraction is
accepted when it is at least `3/5` (the documented `0.6`). -/
def meetsThreshold (s : Nat × Nat) : Bool := 3 * s.2 ≤ 5 * s.1

/-- Left-fold selection of the best-scoring column for field `f`,
starting from current best `b`; a later column replaces the best only on
a strictly higher score, so ties keep the first-seen column. -/
def bestAux (f : String) (b : String) : List String → String
  | [] => b
  | c :: cs =>
      bestAux f
        (if scoreLT (simScore (normalizeName f) (normalizeName b))
            (simScore (normalizeName f) (normalizeName c)) then c else b) cs

/-- The best-scoring dataset column for field `f`, `none` when there are
no columns. -/
def bestColumn (cols : List String) (f : String) : Option String :=
  match cols with
  | [] => none
  | c :: cs => some (bestAux f c cs)

/-- Modelled from the spec: `map_rules_to_dataset` (absent from the source
tree). Rewrites each rule's field to the best-matching dataset column, or
marks the rule `unmapped` when the best score is below the acceptance
threshold (or there are no columns). -/
def map_rules_to_dataset (rules : List Rule) (cols : List String) : List Rule :=
  rules.map fun r =>
    match bestColumn cols r.field with
    | none => { r with unmapped := true }
    | some c =>
        if meetsThreshold (simScore (normalizeName r.field) (normalizeName c))
        then { r with field := c }
        else { r with unmapped := true }

theorem bestAux_stable (f : String) (cs : List String) :
    ∀ b, (∀ x ∈ cs, scoreLE (simScore (normalizeName f) (normalizeName x))
        (simScore (normalizeName f) (normalizeName b)) = true) →
      bestAux f b cs = b := by
  induction cs with
  | nil => intro b _; rfl
  | cons x cs ih =>
    intro b hb
    have hx := hb x (List.mem_cons_self x cs)
    have hlt : scoreLT (simScore (normalizeName f) (normalizeName b))
        (simScore (normalizeName f) (normalizeName x)) = false := by
      simp only [scoreLT, scoreLE, decide_eq_true_eq, decide_eq_false_iff_not] at hx ⊢
      omega
    simp only [bestAux, hlt, Bool.false_eq_true, if_false]
    exact ih b (fun y hy => hb y (List.mem_cons_of_mem x hy))

/-- Claim C4: the Field Mapper is deterministic — identical rule lists and
column sets give identical mapped rules — and ties are broken stably by
first-seen column order: a head column whose score is at least every later
column's score is selected. -/
theorem map_rules_deterministic (rules₁ rules₂ : List Rule)
    (cols₁ cols₂ : List String) (h₁ : rules₁ = rules₂) (h₂ : cols₁ = cols₂)
    (f c : String) (cs : List String)
    (hmax : ∀ x ∈ cs, scoreLE (simScore (normalizeName f) (normalizeName x))
        (simScore (normalizeName f) (normalizeName c)) = true) :
    map_rules_to_dataset rules₁ cols₁ = map_rules_to_dataset rules₂ cols₂ ∧
    bestColumn (c :: cs) f = some c := by
  subst h₁; subst h₂
  exact ⟨rfl, by simp only [bestColumn, bestAux_stable f cs c hmax]⟩

/-- The parsed rules of the mapping scenario. -/
def rulesC9 : List Rule :=
  [{ type := "digit_length", field := "Customer ID" },
   { type := "min_value", field := "Transaction Amount", value := some 100 }]

/-- The dataset columns of the mapping scenario. -/
def colsC9 : List String := ["Customer_ID", "Transaction_Amt", "Transaction_Date"]

/-- Witness for C4: on the scenario inputs, repeated runs agree, and
`Customer_ID` — whose score against "Customer ID" is maximal among the
columns — is selected first-seen. -/
theorem map_rules_deterministic_witness :
    ((rulesC9 = rulesC9 ∧ colsC9 = colsC9) ∧
      ∀ x ∈ ["Transaction_Amt", "Transaction_Date"],
        scoreLE (simScore (normalizeName "Customer ID") (normalizeName x))
          (simScore (normalizeName "Customer ID") (normalizeName "Customer_ID")) = true) ∧
    map_rules_to_dataset rulesC9 colsC9 = map_rules_to_dataset rulesC9 colsC9 ∧
    bestColumn ("Customer_ID" :: ["Transaction_Amt", "Transaction_Date"]) "Customer ID" =
      some "Customer_ID" :=
  ⟨⟨⟨rfl, rfl⟩, by decide⟩,
    map_rules_deterministic rulesC9 rulesC9 colsC9 colsC9 rfl rfl
      "Customer ID" "Customer_ID" ["Transaction_Amt", "Transaction_Date"] (by decide)⟩

/-- Claim C9: against the columns `{Customer_ID, Transaction_Amt,
Transaction_Date}`, the rule field "Customer ID" maps to `Customer_ID` and
"Transaction Amount" maps to `Transaction_Amt`, each being the column of
highest similarity score to the normalized field name. -/
theorem map_rules_scenario :
    (map_rules_to_dataset rulesC9 colsC9).map Rule.field =
      ["Customer_ID", "Transaction_Amt"] ∧
    (∀ c ∈ colsC9, scoreLE (simScore (normalizeName "Customer ID") (normalizeName c))
        (simScore (normalizeName "Customer ID") (normalizeName "Customer_ID")) = true) ∧
    (∀ c ∈ colsC9, scoreLE (simScore (normalizeName "Transaction Amount") (normalizeName c))
        (simScore (normalizeName "Transaction Amount") (normalizeName "Transaction_Amt")) = true) := by
  decide

/-! ## Rule Parser

Modelled from the spec: the source function `parse_rules_with_openai` is
not in the source tree (only its tests are). The remote model's response
body is represented after JSON decoding: `none` stands for a body that is
not valid JSON, `some j` for the decoded JSON value `j`. Per the design
contract, parsing fails with `MalformedRuleResponse` unless the decoded
value is a JSON array, in which case the array's elements are returned
as the rule sequence without semantic validation. -/

/-- A decoded JSON value. -/
inductive Json where
  | null : Json
  | bool (b : Bool) : Json
  | num (n : Int) : Json
  | str (s : String) : Json
  | arr (elems : List Json) : Json
  | obj (fields : List (String × Json)) : Json

/-- Whether a JSON value is an array. -/
def Json.isArr : Json → Bool
  | Json.arr _ => true
  | _ => false

/-- Error raised when the remote rule response is not valid JSON or not a
JSON array. -/
inductive RuleError where
  | MalformedRuleResponse : RuleError
deriving DecidableEq, Repr

/-- Modelled from the spec: `parse_rules_with_openai` (absent from the
source tree), applied to the JSON-decoded remote response body. -/
def parse_rules_with_openai (resp : Option Json) : Except RuleError (List Json) :=
  match resp with
  | some (Json.arr rules) => Except.ok rules
  | _ => Except.error RuleError.MalformedRuleResponse

/-- Claim C5: rule parsing fails with `MalformedRuleResponse` exactly when
the response body is not valid JSON (`none`) or is JSON but not an array;
a JSON array is returned as the parsed rule sequence unchanged, with no
semantic validation. -/
theorem parse_rules_malformed_iff (resp : Option Json) :
    (parse_rules_with_openai resp = Except.error RuleError.MalformedRuleResponse ↔
      (resp = none ∨ ∃ j, resp = some j ∧ j.isArr = false)) ∧
    ∀ rules, resp = some (Json.arr rules) →
      parse_rules_with_openai resp = Except.ok rules := by
  constructor
  · cases resp with
    | none => simp [parse_rules_with_openai]
    | some j => cases j <;> simp [parse_rules_with_openai, Json.isArr]
  · intro rules h
    subst h
    rfl

/-- The mocked remote rule list of the parsing scenario. -/
def mockRules : List Json :=
  [Json.obj [("type", Json.str "min_value"), ("field", Json.str "Transaction_Amount"),
     ("value", Json.num 100)],
   Json.obj [("type", Json.str "max_value"), ("field", Json.str "Transaction_Amount"),
     ("value", Json.num 10000)]]

/-- Witness for C5: the mocked two-rule JSON array parses to exactly its
two elements, and a non-JSON body fails with `MalformedRuleResponse`. -/
theorem parse_rules_malformed_iff_witness :
    (some (Json.arr mockRules) = some (Json.arr mockRules)) ∧
    parse_rules_with_openai (some (Json.arr mockRules)) = Except.ok mockRules ∧
    parse_rules_with_openai none = Except.error RuleError.MalformedRuleResponse :=
  ⟨rfl, (parse_rules_malformed_iff (some (Json.arr mockRules))).2 mockRules rfl,
    ((parse_rules_malformed_iff none).1).mpr (Or.inl rfl)⟩

/-! ## Batch Validator

Modelled from the spec: the source functions `validate_batch_with_openai`
and `validate_dataset_with_openai` are not in the source tree (only their
tests are). The remote model's per-batch verdict is represented after
JSON decoding as `absent` (no/invalid JSON), `notObject` (JSON but not an
object), or an object carrying a `results` list; the remote call itself
is an injected `oracle`. Per the design contract, the dataset is cut into
contiguous batches of up to `batch_size` rows, each batch's results have
their `record_id` remapped from the batch-local index to the global row
index, a malformed response fails that batch with
`MalformedValidationResponse` and its rows are reported as validation
failed, and per-batch results are concatenated in batch order. -/

/-- One per-row verdict of the remote model. -/
structure ValidationResult where
  record_id : Nat
  is_valid : Bool
  violations : List String
deriving DecidableEq, Repr

/-- The remote validation response for one batch, after JSON decoding. -/
inductive BatchResp where
  | absent : BatchResp
  | notObject : BatchResp
  | object (results : List ValidationResult) : BatchResp
deriving DecidableEq, Repr

/-- Error raised when a batch's remote validation response is malformed. -/
inductive VError where
  | MalformedValidationResponse : VError
deriving DecidableEq, Repr

/-- Remaps the model's batch-local record ids to global row indices:
the `i`-th result gets `record_id = start + i`. -/
def remap (start : Nat) : List ValidationResult → List ValidationResult
  | [] => []
  | r :: rs => { r with record_id := start } :: remap (start + 1) rs

/-- The whole-batch fallback when the batch's response is malformed: every
row of the batch is reported as validation failed. -/
def failedBatch (start : Nat) : List Row → List ValidationResult
  | [] => []
  | _ :: b =>
      { record_id := start, is_valid := false, violations := ["Validation failed"] } ::
        failedBatch (start + 1) b

/-- Modelled from the spec: `validate_batch_with_openai` (absent from the
source tree), applied to the decoded remote response `resp` for this
batch. Accepts only an object whose results list matches the batch's row
count, and remaps record ids to global indices. -/
def validate_batch_with_openai (batch : List Row) (rules : List Rule)
    (start_index : Nat) (resp : BatchResp) :
    Except VError (List ValidationResult) :=
  match resp with
  | BatchResp.object rs =>
      if rs.length = batch.length then Except.ok (remap start_index rs)
      else Except.error VError.MalformedValidationResponse
  | _ => Except.error VError.MalformedValidationResponse

/-- Contiguous batches of up to `bs` rows, in original row order (every
batch takes at least one row, so this agrees with fixed-size slicing for
any positive `bs`). -/
def chunks (bs : Nat) : List Row → List (List Row)
  | [] => []
  | r :: d => (r :: d.take (bs - 1)) :: chunks bs (d.drop (bs - 1))
termination_by d => d.length
decreasing_by simp [List.length_drop]; omega

/-- The results contributed by one batch: the remote results on success,
the whole-batch failure fallback otherwise. -/
def batchOut (rules : List Rule) (b : List Row) (start : Nat) (resp : BatchResp) :
    List ValidationResult :=
  match validate_batch_with_openai b rules start resp with
  | Except.ok rs => rs
  | Except.error _ => failedBatch start b

/-- Sequential validation of a list of batches starting at global row
offset `start`, concatenating per-batch results in batch order. -/
def validateBatches (rules : List Rule) (oracle : List Row → Nat → BatchResp) :
    List (List Row) → Nat → List ValidationResult
  | [], _ => []
  | b :: rest, start =>
      batchOut rules b start (oracle b start) ++
        validateBatches rules oracle rest (start + b.length)

/-- Modelled from the spec: `validate_dataset_with_openai` (absent from
the source tree). Partitions the dataset into batches and concatenates
the per-batch results in batch order. -/
def validate_dataset_with_openai (d : List Row) (rules : List Rule)
    (batch_size : Nat) (oracle : List Row → Nat → BatchResp) :
    List ValidationResult :=
  validateBatches rules oracle (chunks batch_size d) 0

theorem remap_map_record_id (rs : List ValidationResult) :
    ∀ s, (remap s rs).map ValidationResult.record_id = List.range' s rs.length := by
  induction rs with
  | nil => intro s; rfl
  | cons r rs ih =>
    intro s
    simp only [remap, List.map_cons, ih, List.length_cons, List.range'_succ]

theorem failedBatch_map_record_id (b : List Row) :
    ∀ s, (failedBatch s b).map ValidationResult.record_id = List.range' s b.length := by
  induction b with
  | nil => intro s; rfl
  | cons r b ih =>
    intro s
    simp only [failedBatch, List.map_cons, ih, List.length_cons, List.range'_succ]

theorem batchOut_map_record_id (rules : List Rule) (b : List Row) (start : Nat)
    (resp : BatchResp) :
    (batchOut rules b start resp).map ValidationResult.record_id =
      List.range' start b.length := by
  cases resp with
  | absent => simp [batchOut, validate_batch_with_openai, failedBatch_map_record_id]
  | notObject => simp [batchOut, validate_batch_with_openai, failedBatch_map_record_id]
  | object rs =>
    by_cases h : rs.length = b.length
    · simp only [batchOut, validate_batch_with_openai, h, if_pos, remap_map_record_id]
    · simp [batchOut, validate_batch_with_openai, h, failedBatch_map_record_id]

theorem validateBatches_map_record_id (rules : List Rule)
    (oracle : List Row → Nat → BatchResp) (batches : List (List Row)) :
    ∀ start, (validateBatches rules oracle batches start).map ValidationResult.record_id =
      List.range' start ((batches.map List.length).sum) := by
  induction batches with
  | nil => intro start; rfl
  | cons b rest ih =>
    intro start
    simp only [validateBatches, List.map_append, batchOut_map_record_id, ih,
      List.map_cons, List.sum_cons]
    have h := List.range'_append start b.length ((rest.map List.length).sum) 1
    simp only [one_mul] at h
    rw [h, Nat.add_comm ((rest.map List.length).sum) b.length]

theorem chunks_sum_length (bs : Nat) :
    ∀ d : List Row, ((chunks bs d).map List.length).sum = d.length
  | [] => by simp [chunks]
  | r :: d => by
    have ih := chunks_sum_length bs (d.drop (bs - 1))
    simp only [chunks, List.map_cons, List.sum_cons, ih, List.length_cons,
      List.length_take, List.length_drop]
    omega
termination_by d => d.length
decreasing_by simp [List.length_drop]; omega

/-- Claim C2: for every dataset, rule list, positive batch size and remote
oracle, the Batch Validator returns exactly one result per input row,
concatenated in batch order, and the `i`-th result's `record_id` is the
global row index `i` (ids are remapped to `batch_start_offset +
local_index`). -/
theorem validate_dataset_global_ids (d : List Row) (rules : List Rule) (bs : Nat)
    (oracle : List Row → Nat → BatchResp) (hbs : 0 < bs) :
    (validate_dataset_with_openai d rules bs oracle).length = d.length ∧
    (validate_dataset_with_openai d rules bs oracle).map ValidationResult.record_id =
      List.range d.length := by
  have hmap : (validate_dataset_with_openai d rules bs oracle).map
      ValidationResult.record_id = List.range' 0 d.length := by
    unfold validate_dataset_with_openai
    rw [validateBatches_map_record_id, chunks_sum_length]
  constructor
  · have h := congrArg List.length hmap
    simpa [List.length_map, List.length_range'] using h
  · rw [hmap, List.range_eq_range']

/-- A remote oracle whose response is always missing (worst case). -/
def batchOracleW : List Row → Nat → BatchResp := fun _ _ => BatchResp.absent

/-- Witness for C2: on the five-row scenario dataset with batch size 2 and
an always-malformed oracle, five results come back carrying the global
row indices 0..4. -/
theorem validate_dataset_global_ids_witness :
    0 < 2 ∧
    (validate_dataset_with_openai scenarioData rulesC9 2 batchOracleW).length =
      scenarioData.length ∧
    (validate_dataset_with_openai scenarioData rulesC9 2 batchOracleW).map
      ValidationResult.record_id = List.range scenarioData.length :=
  ⟨by decide, validate_dataset_global_ids scenarioData rulesC9 2 batchOracleW (by decide)⟩

theorem failedBatch_length (b : List Row) :
    ∀ s, (failedBatch s b).length = b.length := by
  induction b with
  | nil => intro s; rfl
  | cons r b ih => intro s; simp only [failedBatch, List.length_cons, ih]

/-- Claim C6: a batch fails with `MalformedValidationResponse` exactly
when its response is absent, not an object, or an object whose results
length differs from the batch's row count; and such a failure is
contained to that batch — its rows are all reported as validation failed
while the remaining batches are still processed. -/
theorem validate_batch_malformed_contained (batch : List Row) (rules : List Rule)
    (start : Nat) (resp : BatchResp) (oracle : List Row → Nat → BatchResp)
    (rest : List (List Row))
    (herr : validate_batch_with_openai batch rules start (oracle batch start) =
      Except.error VError.MalformedValidationResponse) :
    (validate_batch_with_openai batch rules start resp =
        Except.error VError.MalformedValidationResponse ↔
      (resp = BatchResp.absent ∨ resp = BatchResp.notObject ∨
        ∃ rs, resp = BatchResp.object rs ∧ rs.length ≠ batch.length)) ∧
    validateBatches rules oracle (batch :: rest) start =
      failedBatch start batch ++
        validateBatches rules oracle rest (start + batch.length) ∧
    (failedBatch start batch).length = batch.length := by
  refine ⟨?_, ?_, failedBatch_length batch start⟩
  · cases resp with
    | absent => simp [validate_batch_with_openai]
    | notObject => simp [validate_batch_with_openai]
    | object rs =>
      by_cases h : rs.length = batch.length
      · simp [validate_batch_with_openai, h]
      · simp [validate_batch_with_openai, h]
  · simp only [validateBatches, batchOut, herr]

/-- Witness for C6: with an always-absent oracle, the scenario dataset's
single batch fails, its five rows are reported as failed, and processing
continues past it. -/
theorem validate_batch_malformed_contained_witness :
    (validate_batch_with_openai scenarioData rulesC9 0 (batchOracleW scenarioData 0) =
      Except.error VError.MalformedValidationResponse) ∧
    validateBatches rulesC9 batchOracleW [scenarioData] 0 =
      failedBatch 0 scenarioData ++
        validateBatches rulesC9 batchOracleW [] (0 + scenarioData.length) ∧
    (failedBatch 0 scenarioData).length = scenarioData.length := by
  have herr : validate_batch_with_openai scenarioData rulesC9 0
      (batchOracleW scenarioData 0) =
      Except.error VError.MalformedValidationResponse := rfl
  have h := validate_batch_malformed_contained scenarioData rulesC9 0 BatchResp.absent
    batchOracleW [] herr
  exact ⟨herr, h.2.1, h.2.2⟩

/-- Claim C8: an empty input dataset produces an empty result sequence —
there are no batches at all, so no remote call is made and no remote-call
error can arise, whatever the oracle would answer. -/
theorem validate_empty_dataset (rules : List Rule) (bs : Nat)
    (oracle : List Row → Nat → BatchResp) :
    validate_dataset_with_openai [] rules bs oracle = [] ∧ chunks bs [] = [] := by
  have h : chunks bs ([] : List Row) = [] := by simp [chunks]
  exact ⟨by simp [validate_dataset_with_openai, h, validateBatches], h⟩

/-! ## Violation Reporter

Modelled from the spec: the source function `display_violations` is not in
the source tree (only its tests are). Its printed output is represented
as the list of emitted lines: a header line, then per violation record a
"Record ID: N" line followed by that record's violation messages. -/

/-- A reported violation record: the failing row's global id, its row
snapshot, and its violation messages. -/
structure Violation where
  record_id : Nat
  record : Row
  violations : List String
deriving DecidableEq, Repr

/-- Modelled from the spec: `display_violations` (absent from the source
tree), as the list of printed lines. -/
def display_violations (violations : List Violation) (rules : List Rule) :
    List String :=
  if violations.isEmpty then ["No violations found"]
  else
    "Violations Found" ::
      violations.flatMap (fun v =>
        ("Record ID: " ++ toString v.record_id) :: v.violations)

/-- Claim C10: for every non-empty violation list, the printed output
contains the header "Violations Found", and for each violation record its
"Record ID: N" line and each of its violation messages. -/
theorem display_violations_contains (vs : List Violation) (rules : List Rule)
    (hne : vs ≠ []) (v : Violation) (hv : v ∈ vs) (m : String)
    (hm : m ∈ v.violations) :
    "Violations Found" ∈ display_violations vs rules ∧
    ("Record ID: " ++ toString v.record_id) ∈ display_violations vs rules ∧
    m ∈ display_violations vs rules := by
  have hemp : vs.isEmpty = false := List.isEmpty_eq_false.mpr hne
  simp only [display_violations, hemp, Bool.false_eq_true, if_false]
  refine ⟨List.mem_cons_self _ _, ?_, ?_⟩
  · exact List.mem_cons_of_mem _ (List.mem_flatMap.mpr
      ⟨v, hv, List.mem_cons_self _ _⟩)
  · exact List.mem_cons_of_mem _ (List.mem_flatMap.mpr
      ⟨v, hv, List.mem_cons_of_mem _ hm⟩)

/-- The violation record of the reporting scenario. -/
def violationW : Violation :=
  { record_id := 1,
    record := [("Customer_ID", Value.int 1), ("Transaction_Amt", Value.int 50)],
    violations := ["Amount below minimum"] }

/-- The rule list of the reporting scenario. -/
def rulesW : List Rule :=
  [{ type := "min_value", field := "Transaction_Amt", value := some 100 }]

/-- Witness for C10: the scenario's output contains the header, the line
"Record ID: 1" and the message "Amount below minimum". -/
theorem display_violations_contains_witness :
    ([violationW] ≠ ([] : List Violation) ∧ violationW ∈ [violationW] ∧
      "Amount below minimum" ∈ violationW.violations) ∧
    "Violations Found" ∈ display_violations [violationW] rulesW ∧
    "Record ID: 1" ∈ display_violations [violationW] rulesW ∧
    "Amount below minimum" ∈ display_violations [violationW] rulesW := by
  have h := display_violations_contains [violationW] rulesW (by decide) violationW
    (List.mem_cons_self _ _) "Amount below minimum" (by decide)
  refine ⟨⟨by decide, List.mem_cons_self _ _, by decide⟩, h.1, ?_, h.2.2⟩
  have he : ("Record ID: " ++ toString violationW.record_id) = "Record ID: 1" := by decide
  exact he ▸ h.2.1
